import Mathlib

/-!
# WanderWhiz itinerary-assembly pipeline: a shallow embedding

This file embeds the data-cleaning and itinerary-assembly core of
`src/app.py` (functions `deep_clean_data`, `clean_budget_data`,
`clean_place_data`, `estimate_budget`, the selection/clustering/reordering
logic of the `/itinerary` handler, and the coarse city filter of the index
route) into Lean, and proves or refutes the specification claims about it.

Python values flowing through the cleaning code are modelled by the type
`PyVal` below (None, bool, int, float, str, list, tuple, dict).  Python
floats are modelled as exact rationals; `float("nan")` / infinities are not
representable in the model (the code paths that test for them are noted at
the corresponding definitions).  Python dicts are modelled as ordered
association lists with insert-or-update semantics, matching insertion-order
preservation of Python dicts; key equality is structural equality of
`PyVal`.
-/

mutual

inductive PyVal : Type where
  | none  : PyVal
  | bool  : Bool → PyVal
  | int   : Int → PyVal
  | float : Rat → PyVal
  | str   : String → PyVal
  | list  : PyList → PyVal
  | tuple : PyList → PyVal
  | dict  : PyDict → PyVal
deriving DecidableEq

inductive PyList : Type where
  | nil  : PyList
  | cons : PyVal → PyList → PyList
deriving DecidableEq

inductive PyDict : Type where
  | nil  : PyDict
  | cons : PyVal → PyVal → PyDict → PyDict
deriving DecidableEq

end

/-- Substring test on character lists: does `pat` occur contiguously in `s`?
Embeds Python's `pat in s` for strings. -/
def hasSubAux (pat : List Char) : List Char → Bool
  | [] => pat.isEmpty
  | c :: rest => pat.isPrefixOf (c :: rest) || hasSubAux pat rest

/-- Embeds Python `'Undefined' in s` (case-sensitive substring test). -/
def strContainsUndef (s : String) : Bool :=
  hasSubAux "Undefined".toList s.toList

/-- ASCII case lowering of one character (`A`–`Z` map to `a`–`z`).
Python's `str.lower()` is Unicode-aware, but only the ASCII words
`undefined`/`null`/`nan`/`none` are ever compared against, and no
non-ASCII string lowers to any of them. -/
def charLower (c : Char) : Char :=
  if 65 ≤ c.toNat ∧ c.toNat ≤ 90 then Char.ofNat (c.toNat + 32) else c

/-- `s.lower()` (ASCII model, see `charLower`). -/
def strLower (s : String) : String :=
  String.mk (s.toList.map charLower)

/-- Embeds `s.lower() in ['undefined', 'null', 'nan']` from
`deep_clean_data` (app.py line 137). -/
def isUndefinedString (s : String) : Bool :=
  strLower s == "undefined" || strLower s == "null" || strLower s == "nan"

mutual

/-- Embeds `'Undefined' in str(obj)` (app.py line 96).  In Python, `str` of
a nested container interpolates the `repr` of every nested string, key and
value between punctuation delimiters, so the marker `Undefined` (letters
only) occurs in `str(obj)` exactly when it occurs inside one of the nested
atomic strings. -/
def pvUndef : PyVal → Bool
  | PyVal.str s => strContainsUndef s
  | PyVal.list xs => plUndef xs
  | PyVal.tuple xs => plUndef xs
  | PyVal.dict d => pdUndef d
  | _ => false

def plUndef : PyList → Bool
  | PyList.nil => false
  | PyList.cons x xs => pvUndef x || plUndef xs

def pdUndef : PyDict → Bool
  | PyDict.nil => false
  | PyDict.cons k v rest => pvUndef k || pvUndef v || pdUndef rest

end

/-- `d[k] = v` on the association-list model of a Python dict: if `k` is
already present its value is updated in place (keeping the original key and
position, as Python does); otherwise the pair is appended at the end. -/
def dictInsert (d : PyDict) (k v : PyVal) : PyDict :=
  match d with
  | PyDict.nil => PyDict.cons k v PyDict.nil
  | PyDict.cons k0 v0 tl =>
      if k0 = k then PyDict.cons k0 v tl
      else PyDict.cons k0 v0 (dictInsert tl k v)

/-- Key membership in a dict. -/
def pdHasKey (d : PyDict) (k : PyVal) : Bool :=
  match d with
  | PyDict.nil => false
  | PyDict.cons k0 _ tl => k0 = k || pdHasKey tl k

/-- Embeds `d.get(k)` / `k in d` lookup: first (unique, in Python) matching
key wins. -/
def pdGet (d : PyDict) (k : PyVal) : Option PyVal :=
  match d with
  | PyDict.nil => Option.none
  | PyDict.cons k0 v0 tl => if k0 = k then some v0 else pdGet tl k

/-- Concatenation of dict association lists (used only in proofs). -/
def pdAppend (d e : PyDict) : PyDict :=
  match d with
  | PyDict.nil => e
  | PyDict.cons k v tl => PyDict.cons k v (pdAppend tl e)

mutual

/-- Embeds `deep_clean_data` (app.py lines 70–156).  Python's `None`
return value (meaning "dropped / invalid") is `PyVal.none`, which is also
the embedding of a literal `None` input — exactly the conflation present in
the source.  The `hasattr(obj, '__class__')`-based check of line 90 can
never fire for the value shapes representable here (builtin class names do
not contain `Undefined`), and the `json.dumps` fallback branch of lines
142–156 is unreachable because every `PyVal` shape is one of the
serializable builtin types handled before it. -/
def deep_clean_data : PyVal → PyVal
  | PyVal.none => PyVal.none
  | PyVal.bool b => PyVal.bool b
  | PyVal.int n => PyVal.int n
  | PyVal.float q => PyVal.float q
  | PyVal.str s =>
      if strContainsUndef s then PyVal.none
      else if isUndefinedString s then PyVal.none
      else PyVal.str s
  | PyVal.list xs =>
      if plUndef xs then PyVal.none else PyVal.list (dcList xs)
  | PyVal.tuple xs =>
      if plUndef xs then PyVal.none else PyVal.tuple (dcList xs)
  | PyVal.dict d =>
      if pdUndef d then PyVal.none else PyVal.dict (dcDict PyDict.nil d)

/-- The list/tuple branch of `deep_clean_data` (lines 119–133): clean each
element, dropping the ones that clean to `None`. -/
def dcList : PyList → PyList
  | PyList.nil => PyList.nil
  | PyList.cons x xs =>
      let cx := deep_clean_data x
      if cx = PyVal.none then dcList xs else PyList.cons cx (dcList xs)

/-- The dict branch of `deep_clean_data` (lines 101–117): iterate the
entries in order into an initially empty dict `acc`; skip keys whose string
form contains `Undefined`; keep the pair when the cleaned key is non-None
and either the cleaned value is non-None or the original value was
literally `None`. -/
def dcDict (acc : PyDict) : PyDict → PyDict
  | PyDict.nil => acc
  | PyDict.cons k v rest =>
      if pvUndef k then dcDict acc rest
      else
        let ck := deep_clean_data k
        let cv := deep_clean_data v
        if ck ≠ PyVal.none ∧ (cv ≠ PyVal.none ∨ v = PyVal.none) then
          dcDict (dictInsert acc ck cv) rest
        else dcDict acc rest

end

/-! ## Idempotence of `deep_clean_data`

`cleanBv v` says `v` is in "cleaned form": no string anywhere in it
contains the `Undefined` marker or is a case-insensitive
`undefined`/`null`/`nan`; lists and tuples contain no `None` element; dict
keys are non-`None` and pairwise distinct.  Every output of
`deep_clean_data` is either `None` or in cleaned form, and cleaned forms
are fixed points. -/

mutual

def cleanBv : PyVal → Bool
  | PyVal.none => true
  | PyVal.bool _ => true
  | PyVal.int _ => true
  | PyVal.float _ => true
  | PyVal.str s => !strContainsUndef s && !isUndefinedString s
  | PyVal.list xs => cleanBl xs
  | PyVal.tuple xs => cleanBl xs
  | PyVal.dict d => cleanBd d

def cleanBl : PyList → Bool
  | PyList.nil => true
  | PyList.cons x xs => (x ≠ PyVal.none) && cleanBv x && cleanBl xs

def cleanBd : PyDict → Bool
  | PyDict.nil => true
  | PyDict.cons k v rest =>
      (k ≠ PyVal.none) && cleanBv k && cleanBv v && !pdHasKey rest k && cleanBd rest

end

/-- Keys of `d` are absent from `acc`. -/
def pdDisjoint (acc : PyDict) : PyDict → Bool
  | PyDict.nil => true
  | PyDict.cons k _ rest => !pdHasKey acc k && pdDisjoint acc rest


/-! ## Budget reconciliation: `clean_budget_data` (app.py lines 159–274) -/

/-- Python truthiness of a value (used for `breakdown and isinstance(...)`
style guards). -/
def pyTruthy : PyVal → Bool
  | PyVal.none => false
  | PyVal.bool b => b
  | PyVal.int n => n ≠ 0
  | PyVal.float q => q ≠ 0
  | PyVal.str s => s ≠ ""
  | PyVal.list xs => xs ≠ PyList.nil
  | PyVal.tuple xs => xs ≠ PyList.nil
  | PyVal.dict d => d ≠ PyDict.nil

/-- `int(q)` on a Python float: truncation toward zero. -/
def ratTrunc (q : Rat) : Int := if 0 ≤ q then ⌊q⌋ else -⌊-q⌋

def digitsVal (cs : List Char) : Nat :=
  cs.foldl (fun a c => 10 * a + (c.toNat - 48)) 0

/-- Decimal-literal part of Python `float(s)` string parsing: digits with an
optional fractional part (`"12"`, `"12.5"`, `".5"`, `"12."`).  Exponent
forms, surrounding whitespace and `inf`/`nan` words are not representable in
the rational model; every caller guards the parsed value with range or
sentinel checks that reject those forms anyway. -/
def parseUnsignedRat (cs : List Char) : Option Rat :=
  let ip := cs.takeWhile (fun c => c.isDigit)
  let rest := cs.dropWhile (fun c => c.isDigit)
  match rest with
  | [] => if ip.isEmpty then Option.none else some ((digitsVal ip : Int) : Rat)
  | '.' :: fp =>
      if fp.all (fun c => c.isDigit) && !(ip.isEmpty && fp.isEmpty) then
        some (((digitsVal ip : Int) : Rat) +
          ((digitsVal fp : Int) : Rat) / (10 : Rat) ^ fp.length)
      else Option.none
  | _ => Option.none

/-- Python `float(s)` (with the caveats noted at `parseUnsignedRat`). -/
def strToRatOpt (s : String) : Option Rat :=
  match s.toList with
  | '+' :: cs => parseUnsignedRat cs
  | '-' :: cs => (parseUnsignedRat cs).map (fun q => -q)
  | cs => parseUnsignedRat cs

/-- Embeds `safe_budget_value` (app.py lines 185–217) at its only used
default, `default=0`.  `bool` is an `int` subclass in Python, so `True`
converts to 1.  The NaN/inf guards of lines 204 and 212 cannot fire in the
rational float model; the strings `"inf"`/`"nan"` fail `parseUnsignedRat`
and so fall to the default exactly as the source's explicit checks make
them. -/
def safe_budget_value (value : PyVal) : Int :=
  match value with
  | PyVal.none => 0
  | PyVal.bool b => if b then 1 else 0
  | PyVal.int n => max 0 n
  | PyVal.float q => max 0 (ratTrunc q)
  | PyVal.str s =>
      if strLower s == "nan" || strLower s == "undefined" || strLower s == "null"
         || strLower s == "none" || s == "" then 0
      else
        match strToRatOpt s with
        | some q => max 0 (ratTrunc q)
        | Option.none => 0
  | _ => 0

/-- `budget_data.get(k)` — `None` when `budget_data` is not a dict or the
key is absent. -/
def pyGet (bd : PyVal) (k : String) : Option PyVal :=
  match bd with
  | PyVal.dict d => pdGet d (PyVal.str k)
  | _ => Option.none

/-- `budget_data.get(k, dflt)`. -/
def pyGetD (bd : PyVal) (k : String) (dflt : PyVal) : PyVal :=
  (pyGet bd k).getD dflt

/-- `breakdown.get(k, dflt)` for a dict `breakdown`. -/
def bdGetD (d : PyDict) (k : String) (dflt : PyVal) : PyVal :=
  (pdGet d (PyVal.str k)).getD dflt

/-- `budget_data.get('breakdown', {})` (line 227). -/
def cbdBreakdown (bd : PyVal) : PyVal :=
  pyGetD bd "breakdown" (PyVal.dict PyDict.nil)

/-- The guard `breakdown and isinstance(breakdown, dict)` (line 228): the
nested branch is taken exactly when `breakdown` is a nonempty dict. -/
def cbdNested (bd : PyVal) : Option PyDict :=
  match cbdBreakdown bd with
  | PyVal.dict d => if d = PyDict.nil then Option.none else some d
  | _ => Option.none

/-- `transportation` as computed by lines 229 / 242. -/
def cbdTransportation (bd : PyVal) : Int :=
  match cbdNested bd with
  | some d => safe_budget_value (bdGetD d "transportation" PyVal.none)
  | Option.none => safe_budget_value (pyGetD bd "transportation" PyVal.none)

/-- `food` as computed by lines 230 / 243. -/
def cbdFood (bd : PyVal) : Int :=
  match cbdNested bd with
  | some d => safe_budget_value (bdGetD d "food" PyVal.none)
  | Option.none => safe_budget_value (pyGetD bd "food" PyVal.none)

/-- `activities` as computed by line 232 (with the `attractions` default
chain) / line 244. -/
def cbdActivities (bd : PyVal) : Int :=
  match cbdNested bd with
  | some d =>
      safe_budget_value (bdGetD d "activities" (bdGetD d "attractions" (PyVal.int 0)))
  | Option.none => safe_budget_value (pyGetD bd "activities" PyVal.none)

/-- `miscellaneous` as computed by lines 234–239 / 245, plus the
unconditional top-level addition of line 248. -/
def cbdMisc (bd : PyVal) : Int :=
  (match cbdNested bd with
   | some d =>
       safe_budget_value (bdGetD d "other" (PyVal.int 0)) +
       safe_budget_value (bdGetD d "entertainment" (PyVal.int 0)) +
       safe_budget_value (bdGetD d "accommodation" (PyVal.int 0))
   | Option.none => safe_budget_value (pyGetD bd "miscellaneous" PyVal.none)) +
  safe_budget_value (pyGetD bd "miscellaneous" PyVal.none)

/-- `saved_total` (line 251). -/
def cbdSavedTotal (bd : PyVal) : Int :=
  safe_budget_value (pyGetD bd "total" PyVal.none)

/-- `calculated_total` (line 254). -/
def cbdCalculated (bd : PyVal) : Int :=
  cbdTransportation bd + cbdFood bd + cbdActivities bd + cbdMisc bd

/-- The preserved-total rule (lines 256–263): keep the saved total when it
is positive and within 50% of the freshly calculated one.  The source
compares `abs(saved - calculated) <= calculated * 0.5` between integers and
an exact float; `2·|saved − calculated| ≤ calculated` is the same
comparison in pure integer arithmetic (`0.5` is exactly representable, both
operands are integers), as the theorem `cbdTotal_tolerance` below makes
precise. -/
def cbdTotal (bd : PyVal) : Int :=
  if 0 < cbdSavedTotal bd ∧
      2 * |cbdSavedTotal bd - cbdCalculated bd| ≤ cbdCalculated bd then
    cbdSavedTotal bd
  else cbdCalculated bd

/-- Embeds `clean_budget_data` (app.py lines 159–274).  The early
`not isinstance(budget_data, dict)` return of lines 176–183 produces the
same all-zero dict that the component functions produce on a non-dict
input, so a single assembly covers both paths. -/
def clean_budget_data (budget_data : PyVal) : PyVal :=
  PyVal.dict
    (PyDict.cons (PyVal.str "transportation") (PyVal.int (cbdTransportation budget_data))
      (PyDict.cons (PyVal.str "food") (PyVal.int (cbdFood budget_data))
        (PyDict.cons (PyVal.str "activities") (PyVal.int (cbdActivities budget_data))
          (PyDict.cons (PyVal.str "miscellaneous") (PyVal.int (cbdMisc budget_data))
            (PyDict.cons (PyVal.str "total") (PyVal.int (cbdTotal budget_data))
              PyDict.nil)))))

/-- Keys of a dict, in order. -/
def pdKeys : PyDict → List PyVal
  | PyDict.nil => []
  | PyDict.cons k _ tl => k :: pdKeys tl

/-- Keys of a `PyVal` dict (`[]` for non-dicts). -/
def pyKeys (v : PyVal) : List PyVal :=
  match v with
  | PyVal.dict d => pdKeys d
  | _ => []

/-! ## Budget estimation: `estimate_budget` (app.py lines 423–465) -/

/-- The two fields of a raw place record that `estimate_budget` reads:
`place.get('price_level', 2)` and `place.get('types', [])`.  A missing
`price_level` is `Option.none` here and defaults to 2 at use. -/
structure BudgetPlace where
  price_level : Option Int
  types : List String
deriving DecidableEq

/-- The index expression `min(price_level, 4)` used for every cost-table
lookup (lines 442, 448, 453).  Note it clamps only from above. -/
def budgetIndex (pl : Int) : Int := min pl 4

/-- Python list subscription `l[i]`: non-negative indices address from the
front, negative indices from the back, anything else is an `IndexError`
(`Option.none`). -/
def pyIdx {α : Type} (l : List α) (i : Int) : Option α :=
  if 0 ≤ i then l.get? i.toNat
  else if 0 ≤ i + l.length then l.get? (i + l.length).toNat
  else Option.none

def foodTypes : List String := ["restaurant", "food", "meal_takeaway", "cafe"]

def activityTypes : List String :=
  ["tourist_attraction", "museum", "amusement_park", "zoo", "aquarium"]

def accommodationTypes : List String := ["lodging", "hotel"]

def foodTable : List Int := [15, 25, 45, 75, 120]

def activityTable : List Int := [10, 20, 35, 50, 80]

def accommodationTable : List Int := [60, 120, 200, 350, 500]

/-- `any(t in place_types for t in cats)`. -/
def hasAnyType (place_types cats : List String) : Bool :=
  cats.any (fun c => place_types.contains c)

/-- The four running sums of `budget_breakdown` (lines 426–431). -/
structure BudgetRaw where
  transportation : Int
  food : Int
  activities : Int
  accommodation : Int
deriving DecidableEq

/-- One iteration of the classification loop (lines 436–454): first-match
priority food → activity → accommodation, cost looked up at index
`min(price_level, 4)`; a lookup outside Python list bounds is an uncaught
`IndexError` (`Option.none`). -/
def addPlaceCost (b : BudgetRaw) (p : BudgetPlace) : Option BudgetRaw :=
  let pl := p.price_level.getD 2
  if hasAnyType p.types foodTypes then
    (pyIdx foodTable (budgetIndex pl)).map
      (fun c => { b with food := b.food + c })
  else if hasAnyType p.types activityTypes then
    (pyIdx activityTable (budgetIndex pl)).map
      (fun c => { b with activities := b.activities + c })
  else if hasAnyType p.types accommodationTypes then
    (pyIdx accommodationTable (budgetIndex pl)).map
      (fun c => { b with accommodation := b.accommodation + c })
  else some b

/-- Python 3 `round` on the rational model of a float: round half to even.
This is the reference model of the source's `round(...)` calls; the
integer-arithmetic forms actually used in `estimate_budget` below are
proved equal to it (`roundTenth_eq_pythonRound`,
`roundTotalTenth_eq_pythonRound`). -/
def pythonRound (q : Rat) : Int :=
  if q - (⌊q⌋ : Rat) < 1 / 2 then ⌊q⌋
  else if 1 / 2 < q - (⌊q⌋ : Rat) then ⌊q⌋ + 1
  else if ⌊q⌋ % 2 = 0 then ⌊q⌋ else ⌊q⌋ + 1

/-- `round(s * 0.1)` for an integer `s`, in exact integer arithmetic:
round-half-to-even of `s/10`. -/
def roundTenth (s : Int) : Int :=
  if s % 10 < 5 then s / 10
  else if 5 < s % 10 then s / 10 + 1
  else if (s / 10) % 2 = 0 then s / 10 else s / 10 + 1

/-- `round(s + s * 0.1)` for an integer `s`: since
`s + s/10 = (11·s)/10` exactly, this is `roundTenth` of `11·s`. -/
def roundTotalTenth (s : Int) : Int := roundTenth (11 * s)

/-- The value returned by `estimate_budget` (lines 461–465): the rounded
total, the rounded `breakdown` entries, and the top-level rounded
`miscellaneous` (which is **not** part of `breakdown`). -/
structure BudgetEstimate where
  total : Int
  transportation : Int
  food : Int
  activities : Int
  accommodation : Int
  miscellaneous : Int
deriving DecidableEq

/-- Sum of the four returned breakdown categories. -/
def bSum (e : BudgetEstimate) : Int :=
  e.transportation + e.food + e.activities + e.accommodation

/-- Embeds `estimate_budget` (app.py lines 423–465).  `subtotal * 0.1` and
`subtotal + miscellaneous` are modelled as exact rational values rounded
with Python's half-even `round`, written in the equivalent integer
arithmetic (`roundTenth`, `roundTotalTenth`) so the function evaluates by
`decide`; `round(v)` on the integer breakdown entries of line 463 is the
identity.  The concrete inputs evaluated in the theorems below were checked
to make the double-precision source compute exactly the same values. -/
def estimate_budget (places : List BudgetPlace) : Option BudgetEstimate :=
  (places.foldlM addPlaceCost
      { transportation := 25, food := 0, activities := 0, accommodation := 0 }).map
    (fun b =>
      let subtotal : Int := b.transportation + b.food + b.activities + b.accommodation
      { total := roundTotalTenth subtotal,
        transportation := b.transportation,
        food := b.food,
        activities := b.activities,
        accommodation := b.accommodation,
        miscellaneous := roundTenth subtotal })

/-- Association-list literal helper for building test dicts. -/
def mkDict (l : List (String × PyVal)) : PyVal :=
  PyVal.dict (l.foldr (fun p acc => PyDict.cons (PyVal.str p.1) p.2 acc) PyDict.nil)

/-- The saved estimate of the spec example: `{total: 100, breakdown:
{transportation: 25, food: 45, activities: 0, miscellaneous: 0}}` (fresh
sum 70). -/
def exBudgetSaved : PyVal :=
  mkDict [("total", PyVal.int 100),
    ("breakdown", mkDict [("transportation", PyVal.int 25),
      ("food", PyVal.int 45), ("activities", PyVal.int 0),
      ("miscellaneous", PyVal.int 0)])]

/-- A saved estimate with a nested breakdown containing accommodation,
entertainment and other amounts. -/
def exBudgetNested : PyVal :=
  mkDict [("total", PyVal.int 100),
    ("breakdown", mkDict [("transportation", PyVal.int 25),
      ("food", PyVal.int 45), ("activities", PyVal.int 0),
      ("accommodation", PyVal.int 30), ("entertainment", PyVal.int 5),
      ("other", PyVal.int 2)])]

/-- The dict entries of `exBudgetNested`'s breakdown. -/
def exBudgetNestedBreakdown : PyDict :=
  PyDict.cons (PyVal.str "transportation") (PyVal.int 25)
    (PyDict.cons (PyVal.str "food") (PyVal.int 45)
      (PyDict.cons (PyVal.str "activities") (PyVal.int 0)
        (PyDict.cons (PyVal.str "accommodation") (PyVal.int 30)
          (PyDict.cons (PyVal.str "entertainment") (PyVal.int 5)
            (PyDict.cons (PyVal.str "other") (PyVal.int 2) PyDict.nil)))))

/-! ## Place validation: `clean_place_data` (app.py lines 277–382) -/

/-- Python `int(s)` on a string: an optional sign followed by digits
(whitespace tolerance is not modelled; no caller feeds padded strings in a
way any claim depends on). -/
def strToIntOpt (s : String) : Option Int :=
  match s.toList with
  | '+' :: cs =>
      if !cs.isEmpty && cs.all (fun c => c.isDigit) then
        some (digitsVal cs : Int)
      else Option.none
  | '-' :: cs =>
      if !cs.isEmpty && cs.all (fun c => c.isDigit) then
        some (-(digitsVal cs : Int))
      else Option.none
  | cs =>
      if !cs.isEmpty && cs.all (fun c => c.isDigit) then
        some (digitsVal cs : Int)
      else Option.none

/-- Python `float(x)` on a value: numbers pass through (`bool` is an `int`
subclass), strings are parsed, everything else is a `TypeError`
(`Option.none`). -/
def pyToRatOpt : PyVal → Option Rat
  | PyVal.float q => some q
  | PyVal.int n => some (n : Rat)
  | PyVal.bool b => some (if b then 1 else 0)
  | PyVal.str s => strToRatOpt s
  | _ => Option.none

/-- Python `int(x)` on a value: floats truncate toward zero, strings must
be integer literals, everything else raises. -/
def pyToIntOpt : PyVal → Option Int
  | PyVal.int n => some n
  | PyVal.float q => some (ratTrunc q)
  | PyVal.bool b => some (if b then 1 else 0)
  | PyVal.str s => strToIntOpt s
  | _ => Option.none

/-- The `safe_get` helper of `clean_place_data` (lines 297–304): on a dict
with the key present, deep-clean the value and return it when non-None;
otherwise the default `None`. -/
def safe_get (obj : PyVal) (key : String) : PyVal :=
  match obj with
  | PyVal.dict d =>
      match pdGet d (PyVal.str key) with
      | some v => deep_clean_data v
      | Option.none => PyVal.none
  | _ => PyVal.none

/-- `str(x)` for the scalar shapes `clean_place_data` converts (`name`,
`place_id` accept str/int/float and, as their subclass, bool).  The text of
a float differs from CPython's float repr; no claim depends on the
rendered text. -/
def pyStrOf : PyVal → String
  | PyVal.str s => s
  | PyVal.int n => toString n
  | PyVal.bool b => if b then "True" else "False"
  | PyVal.float q => toString q
  | _ => ""

/-- `isinstance(x, (str, int, float))` — `bool` is a subclass of `int`. -/
def isStrNum : PyVal → Bool
  | PyVal.str _ => true
  | PyVal.int _ => true
  | PyVal.float _ => true
  | PyVal.bool _ => true
  | _ => false

/-- `isinstance(x, (str, int))`. -/
def isStrInt : PyVal → Bool
  | PyVal.str _ => true
  | PyVal.int _ => true
  | PyVal.bool _ => true
  | _ => false

/-- The canonical cleaned place dict built by `clean_place_data` (lines
294–371): a fixed set of optional fields.  `geometry` is `(lat, lng)` when
the `geometry.location.{lat,lng}` path parsed and passed the
range-and-nonzero check. -/
structure CleanedPlace where
  name : Option String
  place_id : Option String
  geometry : Option (Rat × Rat)
  rating : Option Rat
  vicinity : Option String
  formatted_address : Option String
  price_level : Option Int
  types : Option (List String)
deriving DecidableEq

/-- The geometry extraction of lines 315–336.  Outer `Option.none` is the
`continue` of line 336: `float()` raised and the whole place is skipped.
Inner `Option.none` means the `geometry` key is simply not set (place later
dropped by the final check of lines 373–375).  If the source's `float()`
accepts a string this model's parser rejects (`"inf"`, exponents), the
source's value necessarily fails the subsequent range check, so the place
ends up without geometry on both sides. -/
def placeGeometry (place : PyVal) : Option (Option (Rat × Rat)) :=
  match safe_get place "geometry" with
  | PyVal.dict gd =>
      if gd = PyDict.nil then some Option.none
      else
        match safe_get (PyVal.dict gd) "location" with
        | PyVal.dict ld =>
            if ld = PyDict.nil then some Option.none
            else
              let latV := safe_get (PyVal.dict ld) "lat"
              let lngV := safe_get (PyVal.dict ld) "lng"
              if latV = PyVal.none ∨ lngV = PyVal.none then some Option.none
              else
                match pyToRatOpt latV, pyToRatOpt lngV with
                | some la, some ln =>
                    if -90 ≤ la ∧ la ≤ 90 ∧ -180 ≤ ln ∧ ln ≤ 180 ∧
                        la ≠ 0 ∧ ln ≠ 0 then
                      some (some (la, ln))
                    else some Option.none
                | _, _ => Option.none
        | _ => some Option.none
  | _ => some Option.none

/-- Elements of a `PyList` as a Lean list. -/
def pyListElems : PyList → List PyVal
  | PyList.nil => []
  | PyList.cons x xs => x :: pyListElems xs

/-- The `types` cleaning of lines 364–371: keep the string elements; the
field is set only when the surviving list is nonempty. -/
def cleanTypes (v : PyVal) : Option (List String) :=
  match v with
  | PyVal.list xs =>
      if xs = PyList.nil then Option.none
      else
        let kept := (pyListElems xs).filterMap (fun t =>
          match t with
          | PyVal.str s => some s
          | _ => Option.none)
        if kept.isEmpty then Option.none else some kept
  | _ => Option.none

/-- One iteration of the cleaning loop of `clean_place_data` (lines
289–380): `Option.none` when the place is skipped outright (not a dict, or
the coordinate conversion raised). -/
def processPlace (place : PyVal) : Option CleanedPlace :=
  match place with
  | PyVal.dict _ =>
      match placeGeometry place with
      | Option.none => Option.none
      | some geo =>
          let nameV := safe_get place "name"
          let pidV := safe_get place "place_id"
          let ratingV := safe_get place "rating"
          let vicV := safe_get place "vicinity"
          let faV := safe_get place "formatted_address"
          let plV := safe_get place "price_level"
          some {
            name := if pyTruthy nameV && isStrNum nameV then
                some (pyStrOf nameV) else Option.none,
            place_id := if pyTruthy pidV && isStrInt pidV then
                some (pyStrOf pidV) else Option.none,
            geometry := geo,
            rating :=
              if ratingV = PyVal.none then Option.none
              else match pyToRatOpt ratingV with
                | some r => if 0 ≤ r ∧ r ≤ 5 then some r else Option.none
                | Option.none => Option.none,
            vicinity := match vicV with
              | PyVal.str s => if s ≠ "" then some s else Option.none
              | _ => Option.none,
            formatted_address := match faV with
              | PyVal.str s => if s ≠ "" then some s else Option.none
              | _ => Option.none,
            price_level :=
              if plV = PyVal.none then Option.none
              else match pyToIntOpt plV with
                | some n => if 0 ≤ n ∧ n ≤ 4 then some n else Option.none
                | Option.none => Option.none,
            types := cleanTypes (safe_get place "types") }
  | _ => Option.none

/-- Embeds `clean_place_data` (app.py lines 277–382): guard that the input
is a truthy list, deep-clean it, process each surviving element, and keep
only the places that end up with both a `name` and a `geometry` (lines
373–376). -/
def clean_place_data (places : PyVal) : List CleanedPlace :=
  match places with
  | PyVal.list xs =>
      if xs = PyList.nil then []
      else
        match deep_clean_data (PyVal.list xs) with
        | PyVal.list ys =>
            (pyListElems ys).filterMap (fun place =>
              match processPlace place with
              | some cp =>
                  if cp.name.isSome ∧ cp.geometry.isSome then some cp
                  else Option.none
              | Option.none => Option.none)
        | _ => []
  | _ => []

/-- A raw place list with one fully valid entry, used as the C8 witness
input. -/
def exRawPlaces : PyVal :=
  PyVal.list (PyList.cons
    (mkDict [("name", PyVal.str "Museum"),
      ("geometry", mkDict [("location",
        mkDict [("lat", PyVal.int 43), ("lng", PyVal.int (-79))])])])
    PyList.nil)

/-- The cleaned form of the single valid entry of `exRawPlaces`. -/
def exCleanedPlace : CleanedPlace :=
  { name := some "Museum", place_id := Option.none,
    geometry := some ((43 : Rat), (-79 : Rat)), rating := Option.none,
    vicinity := Option.none, formatted_address := Option.none,
    price_level := Option.none, types := Option.none }

/-! ## Selection resolution: the first pass of the `/itinerary` handler
(app.py lines 1001–1033) -/

/-- `str(value).lower() == 'undefined'` (line 1016): only a string can
render exactly as `undefined`. -/
def undefStrVal : PyVal → Bool
  | PyVal.str s => strLower s == "undefined"
  | _ => false

/-- The re-cleaning loop of lines 1014–1017: keep entries whose value is
neither `None` nor the string `undefined` (case-insensitively), building a
fresh dict by assignment. -/
def dropUndefEntries (acc : PyDict) : PyDict → PyDict
  | PyDict.nil => acc
  | PyDict.cons k v rest =>
      if v ≠ PyVal.none ∧ undefStrVal v = false then
        dropUndefEntries (dictInsert acc k v) rest
      else dropUndefEntries acc rest

/-- Embeds `is_valid_coordinate` (lines 968–978): both values present,
both convertible by `float()`, in range and nonzero. -/
def is_valid_coordinate (latV lngV : PyVal) : Bool :=
  if latV = PyVal.none ∨ lngV = PyVal.none then false
  else
    match pyToRatOpt latV, pyToRatOpt lngV with
    | some la, some ln =>
        decide (la ≠ 0 ∧ ln ≠ 0 ∧ -90 ≤ la ∧ la ≤ 90 ∧ -180 ≤ ln ∧ ln ≤ 180)
    | _, _ => false

/-- The per-place body of the loop (lines 1008–1028) after a place was
fetched.  Outer `Option.none` models an *uncaught* `AttributeError`: a
truthy non-dict `geometry` (or `location`) value makes the source call
`.get` on a non-dict, which none of the caught exception types covers and
which would abort the whole request; inner `some r` is normal flow with
`r` the kept cleaned place (or `Option.none` when the place is skipped). -/
def validSelectedPlace (place : PyVal) : Option (Option PyVal) :=
  match place with
  | PyVal.dict d =>
      let cpd := dropUndefEntries PyDict.nil d
      match pdGet cpd (PyVal.str "geometry") with
      | some g =>
          if pyTruthy g then
            match g with
            | PyVal.dict gd =>
                (match pdGet gd (PyVal.str "location") with
                 | some loc =>
                     if pyTruthy loc then
                       match loc with
                       | PyVal.dict ld =>
                           some (if is_valid_coordinate
                               ((pdGet ld (PyVal.str "lat")).getD PyVal.none)
                               ((pdGet ld (PyVal.str "lng")).getD PyVal.none)
                             then some (PyVal.dict cpd) else Option.none)
                       | _ => Option.none
                     else some Option.none
                 | Option.none => some Option.none)
            | _ => Option.none
          else some Option.none
      | Option.none => some Option.none
  | _ => some Option.none

/-- One selection entry (lines 1002–1033): parse the index with `int(...)`
(`ValueError` → skipped), guard only `idx < len(places)` — note there is
no lower bound — fetch `places[idx]` with Python indexing (`IndexError`,
for `idx < -len`, is caught at line 1031 → skipped), then validate the
place. -/
def resolveEntry (places : List PyVal) (idx_str : String) :
    Option (Option PyVal) :=
  match strToIntOpt idx_str with
  | Option.none => some Option.none
  | some idx =>
      if idx < (places.length : Int) then
        match pyIdx places idx with
        | some place => validSelectedPlace place
        | Option.none => some Option.none
      else some Option.none

/-- The whole first pass (lines 1001–1033): fold the selection entries in
order, collecting the resolved places; `Option.none` propagates an
uncaught exception from `validSelectedPlace`. -/
def firstPass (ids : List String) (places : List PyVal) :
    Option (List PyVal) :=
  match ids with
  | [] => some []
  | s :: rest =>
      match resolveEntry places s with
      | Option.none => Option.none
      | some r =>
          (firstPass rest places).map (fun l =>
            match r with
            | some p => p :: l
            | Option.none => l)

/-- Two concrete places for the C9 counterexample and witness. -/
def exSelPlace0 : PyVal :=
  mkDict [("name", PyVal.str "A"),
    ("geometry", mkDict [("location",
      mkDict [("lat", PyVal.int 43), ("lng", PyVal.int (-79))])])]

def exSelPlace1 : PyVal :=
  mkDict [("name", PyVal.str "B"),
    ("geometry", mkDict [("location",
      mkDict [("lat", PyVal.int 44), ("lng", PyVal.int (-78))])])]

/-! ## Geometry: haversine clustering and the coarse city filter
(app.py lines 693–711 and 980–1069)

The itinerary handler computes with Python floats and `math.sin`/`cos`/
`atan2`/`sqrt`; this is modelled over the real numbers.  These definitions
are necessarily noncomputable; concrete evaluations in the theorems are
carried out symbolically. -/

/-- A place as the clustering stage sees it:
`place['geometry']['location']['lat' / 'lng']`. -/
structure GeoPlace where
  lat : Real
  lng : Real

theorem GeoPlace.ext_ (p q : GeoPlace) (h1 : p.lat = q.lat)
    (h2 : p.lng = q.lng) : p = q := by
  cases p; cases q; cases h1; cases h2; rfl

/-- `math.radians(x) = x·π/180`. -/
noncomputable def radians (x : Real) : Real := x * Real.pi / 180

/-- `math.atan2(y, x)` over the reals. -/
noncomputable def atan2 (y x : Real) : Real :=
  if 0 < x then Real.arctan (y / x)
  else if x < 0 then
    (if 0 ≤ y then Real.arctan (y / x) + Real.pi
     else Real.arctan (y / x) - Real.pi)
  else (if 0 < y then Real.pi / 2 else if y < 0 then -(Real.pi / 2) else 0)

/-- Embeds `calculate_distance` (lines 980–998): the haversine formula
with Earth radius 6371 km.  The `except` branch returning `float('inf')`
cannot trigger in the real-number model. -/
noncomputable def calculate_distance (lat1 lng1 lat2 lng2 : Real) : Real :=
  6371 * (2 * atan2
    (Real.sqrt (Real.sin (radians (lat2 - lat1) / 2) ^ 2 +
      Real.cos (radians lat1) * Real.cos (radians lat2) *
        Real.sin (radians (lng2 - lng1) / 2) ^ 2))
    (Real.sqrt (1 - (Real.sin (radians (lat2 - lat1) / 2) ^ 2 +
      Real.cos (radians lat1) * Real.cos (radians lat2) *
        Real.sin (radians (lng2 - lng1) / 2) ^ 2))))

/-- The planar degree distance of the coarse city filter (lines 701–703):
`sqrt(lat_diff² + lng_diff²)` with absolute differences
(`x ** 0.5 = sqrt` for `x ≥ 0`). -/
noncomputable def cityDistanceDeg (placeLat placeLng cityLat cityLng : Real) :
    Real :=
  Real.sqrt (|placeLat - cityLat| ^ 2 + |placeLng - cityLng| ^ 2)

/-- The coarse city filter (lines 693–711): keep places *strictly* within
0.3 degrees of the city centre — the comparison at line 706 is
`distance < 0.3`. -/
noncomputable def cityFilter (places : List GeoPlace) (cityLat cityLng : Real) :
    List GeoPlace :=
  places.filter (fun p =>
    @decide (cityDistanceDeg p.lat p.lng cityLat cityLng < 3 / 10)
      (Classical.propDecidable _))

/-- The 15 km cluster filter (lines 1047–1060): keep places whose haversine
distance from the centre is `≤ 15` (inclusive, line 1056). -/
noncomputable def clusterFilter (center : GeoPlace) (places : List GeoPlace) :
    List GeoPlace :=
  places.filter (fun p =>
    @decide (calculate_distance center.lat center.lng p.lat p.lng ≤ 15)
      (Classical.propDecidable _))

/-- The centroid of lines 1042–1045: arithmetic mean of the coordinates. -/
noncomputable def centroid (places : List GeoPlace) : GeoPlace :=
  ⟨(places.map GeoPlace.lat).sum / places.length,
   (places.map GeoPlace.lng).sum / places.length⟩

inductive AssembleError : Type where
  | InsufficientPlaces : AssembleError
  | InsufficientAfterClustering : AssembleError
deriving DecidableEq

/-- The two minimum-count gates and the cluster filter of the `/itinerary`
handler (lines 1037–1069), starting from the already-validated selected
places: fewer than 2 valid places is `InsufficientPlaces` (line 1037);
after filtering to within 15 km of the centroid, fewer than 2 remaining is
`InsufficientAfterClustering` (line 1068). -/
noncomputable def assembleGates (valid_places : List GeoPlace) :
    Except AssembleError (List GeoPlace) :=
  if valid_places.length < 2 then Except.error AssembleError.InsufficientPlaces
  else
    let selected := clusterFilter (centroid valid_places) valid_places
    if selected.length < 2 then
      Except.error AssembleError.InsufficientAfterClustering
    else Except.ok selected

/-- Half the latitude separation, in degrees, of two points 20 km apart
along a meridian: `radians(2·delta20) = 20/6371`. -/
noncomputable def delta20 : Real := 1800 / (6371 * Real.pi)

/-- Two valid places exactly 20 km apart (same longitude 1, latitudes
`1 ∓ delta20`). -/
noncomputable def placeA : GeoPlace := ⟨1 - delta20, 1⟩

noncomputable def placeB : GeoPlace := ⟨1 + delta20, 1⟩

/-- Latitude offset, in degrees, putting a point exactly 15 km north of
latitude 1: `radians(delta15) = 15/6371`. -/
noncomputable def delta15 : Real := 2700 / (6371 * Real.pi)

/-- A place exactly 15 km from `(1, 1)`. -/
noncomputable def place15 : GeoPlace := ⟨1 + delta15, 1⟩

/-- A place exactly 0.3 degrees (planar) from the city centre `(1, 1)`. -/
noncomputable def placeDeg03 : GeoPlace := ⟨13 / 10, 1⟩

/-! ## Order reconciliation (app.py lines 1169–1184) -/

/-- Embeds the waypoint-reorder reconciliation: `ordered_places` starts as
a copy of `selected_places`; when the provider response carries an
`optimizedIntermediateWaypointIndex` list (`some idxs` here; `Option.none`
is an absent key) whose length equals the number of interior points,
rebuild as `[first] + [selected[idx+1] for idx in idxs if idx+1 < len-1] +
[last]`; otherwise keep the original order.  The guard checks only the
upper bound, and `selected_places[idx + 1]` is Python indexing; an
`idx + 1 ≤ -len - 1` would raise an uncaught `IndexError` in the source —
modelled as a skipped element, a case the theorems never rely on (their
permutation hypothesis keeps every index in `[0, len-2)`). -/
def reorderPlaces {α : Type} (selected : List α) (optIdx : Option (List Int)) :
    List α :=
  match optIdx with
  | Option.none => selected
  | some idxs =>
      if (idxs.length : Int) = (selected.length : Int) - 2 then
        match selected with
        | [] => []
        | x :: xs =>
            x :: (idxs.filterMap (fun i =>
              if i + 1 < ((x :: xs).length : Int) - 1 then pyIdx (x :: xs) (i + 1)
              else Option.none)) ++ [(x :: xs).getLast (by simp)]
      else selected

theorem pdHasKey_dictInsert : ∀ (d : PyDict) (k v k1 : PyVal),
    pdHasKey (dictInsert d k v) k1 = (pdHasKey d k1 || k = k1)
  | PyDict.nil, k, v, k1 => by simp [dictInsert, pdHasKey]
  | PyDict.cons k0 v0 tl, k, v, k1 => by
      by_cases h : k0 = k
      · subst h
        simp only [dictInsert, if_pos rfl, pdHasKey]
        by_cases h1 : k0 = k1 <;> simp [h1]
      · simp only [dictInsert, if_neg h, pdHasKey,
          pdHasKey_dictInsert tl k v k1]
        by_cases h1 : k0 = k1 <;> simp [h1]

theorem pdHasKey_pdAppend : ∀ (d e : PyDict) (k : PyVal),
    pdHasKey (pdAppend d e) k = (pdHasKey d k || pdHasKey e k)
  | PyDict.nil, e, k => by simp [pdAppend, pdHasKey]
  | PyDict.cons k0 v0 tl, e, k => by
      simp [pdAppend, pdHasKey, pdHasKey_pdAppend tl e k, Bool.or_assoc]

theorem pdAppend_assoc : ∀ (a b c : PyDict),
    pdAppend (pdAppend a b) c = pdAppend a (pdAppend b c)
  | PyDict.nil, b, c => by simp [pdAppend]
  | PyDict.cons k v tl, b, c => by simp [pdAppend, pdAppend_assoc tl b c]

theorem dictInsert_of_not_hasKey : ∀ (acc : PyDict) (k v : PyVal),
    pdHasKey acc k = false →
    dictInsert acc k v = pdAppend acc (PyDict.cons k v PyDict.nil)
  | PyDict.nil, k, v, _ => by simp [dictInsert, pdAppend]
  | PyDict.cons k0 v0 tl, k, v, h => by
      simp only [pdHasKey, Bool.or_eq_false_iff,
        decide_eq_false_iff_not] at h
      simp only [dictInsert, if_neg h.1, pdAppend,
        dictInsert_of_not_hasKey tl k v h.2]

theorem cleanBd_dictInsert : ∀ (acc : PyDict) (k v : PyVal),
    cleanBd acc = true → k ≠ PyVal.none → cleanBv k = true →
    cleanBv v = true → cleanBd (dictInsert acc k v) = true
  | PyDict.nil, k, v, _, hk, hck, hcv => by
      simp [dictInsert, cleanBd, pdHasKey, hk, hck, hcv]
  | PyDict.cons k0 v0 tl, k, v, hacc, hk, hck, hcv => by
      simp only [cleanBd, Bool.and_eq_true, Bool.not_eq_true',
        decide_eq_true_eq] at hacc
      by_cases h : k0 = k
      · subst h
        simp [dictInsert, cleanBd, hacc.1.1.1.1, hacc.1.1.1.2, hcv,
          hacc.1.2, hacc.2]
      · simp only [dictInsert, if_neg h, cleanBd, Bool.and_eq_true,
          Bool.not_eq_true', decide_eq_true_eq]
        refine ⟨⟨⟨⟨hacc.1.1.1.1, hacc.1.1.1.2⟩, hacc.1.1.2⟩, ?_⟩,
          cleanBd_dictInsert tl k v hacc.2 hk hck hcv⟩
        rw [pdHasKey_dictInsert, hacc.1.2]
        simp only [Bool.false_or, decide_eq_false_iff_not]
        exact fun hh => h hh.symm

theorem pdDisjoint_single_of_not_hasKey : ∀ (rest : PyDict) (k v : PyVal),
    pdHasKey rest k = false →
    pdDisjoint (PyDict.cons k v PyDict.nil) rest = true
  | PyDict.nil, k, v, _ => by simp [pdDisjoint]
  | PyDict.cons k1 v1 tl, k, v, h => by
      simp only [pdHasKey, Bool.or_eq_false_iff,
        decide_eq_false_iff_not] at h
      simp only [pdDisjoint, Bool.and_eq_true, Bool.not_eq_true']
      refine ⟨?_, pdDisjoint_single_of_not_hasKey tl k v h.2⟩
      simp only [pdHasKey, Bool.or_false, decide_eq_false_iff_not]
      exact fun hh => h.1 hh.symm

theorem pdDisjoint_pdAppend : ∀ (a b d : PyDict),
    pdDisjoint (pdAppend a b) d = (pdDisjoint a d && pdDisjoint b d)
  | a, b, PyDict.nil => by simp [pdDisjoint]
  | a, b, PyDict.cons k v rest => by
      simp only [pdDisjoint, pdHasKey_pdAppend, pdDisjoint_pdAppend a b rest]
      by_cases h1 : pdHasKey a k <;> by_cases h2 : pdHasKey b k <;>
        simp [h1, h2]

theorem pdAppend_nil : ∀ d : PyDict, pdAppend d PyDict.nil = d
  | PyDict.nil => rfl
  | PyDict.cons k v tl => by simp [pdAppend, pdAppend_nil tl]

theorem pdDisjoint_nil : ∀ d : PyDict, pdDisjoint PyDict.nil d = true
  | PyDict.nil => rfl
  | PyDict.cons k v rest => by simp [pdDisjoint, pdHasKey, pdDisjoint_nil rest]

mutual

theorem cleanBv_pvUndef : ∀ v : PyVal, cleanBv v = true → pvUndef v = false
  | PyVal.none, _ => rfl
  | PyVal.bool _, _ => rfl
  | PyVal.int _, _ => rfl
  | PyVal.float _, _ => rfl
  | PyVal.str s, h => by
      simp only [cleanBv, Bool.and_eq_true, Bool.not_eq_true'] at h
      simpa [pvUndef] using h.1
  | PyVal.list xs, h => by
      simp only [cleanBv] at h
      simpa [pvUndef] using cleanBl_plUndef xs h
  | PyVal.tuple xs, h => by
      simp only [cleanBv] at h
      simpa [pvUndef] using cleanBl_plUndef xs h
  | PyVal.dict d, h => by
      simp only [cleanBv] at h
      simpa [pvUndef] using cleanBd_pdUndef d h

theorem cleanBl_plUndef : ∀ xs : PyList, cleanBl xs = true → plUndef xs = false
  | PyList.nil, _ => rfl
  | PyList.cons x xs, h => by
      simp only [cleanBl, Bool.and_eq_true] at h
      simp [plUndef, cleanBv_pvUndef x h.1.2, cleanBl_plUndef xs h.2]

theorem cleanBd_pdUndef : ∀ d : PyDict, cleanBd d = true → pdUndef d = false
  | PyDict.nil, _ => rfl
  | PyDict.cons k v rest, h => by
      simp only [cleanBd, Bool.and_eq_true] at h
      simp [pdUndef, cleanBv_pvUndef k h.1.1.1.2, cleanBv_pvUndef v h.1.1.2,
        cleanBd_pdUndef rest h.2]

end

mutual

theorem dcv_clean : ∀ v : PyVal,
    deep_clean_data v = PyVal.none ∨ cleanBv (deep_clean_data v) = true
  | PyVal.none => Or.inl rfl
  | PyVal.bool _ => Or.inr rfl
  | PyVal.int _ => Or.inr rfl
  | PyVal.float _ => Or.inr rfl
  | PyVal.str s => by
      by_cases h1 : strContainsUndef s
      · exact Or.inl (by simp [deep_clean_data, h1])
      · by_cases h2 : isUndefinedString s
        · exact Or.inl (by simp [deep_clean_data, h1, h2])
        · exact Or.inr (by simp [deep_clean_data, h1, h2, cleanBv])
  | PyVal.list xs => by
      by_cases h : plUndef xs
      · exact Or.inl (by simp [deep_clean_data, h])
      · refine Or.inr ?_
        simp only [deep_clean_data, h, Bool.false_eq_true, if_false, cleanBv]
        exact dcl_clean xs
  | PyVal.tuple xs => by
      by_cases h : plUndef xs
      · exact Or.inl (by simp [deep_clean_data, h])
      · refine Or.inr ?_
        simp only [deep_clean_data, h, Bool.false_eq_true, if_false, cleanBv]
        exact dcl_clean xs
  | PyVal.dict d => by
      by_cases h : pdUndef d
      · exact Or.inl (by simp [deep_clean_data, h])
      · refine Or.inr ?_
        simp only [deep_clean_data, h, Bool.false_eq_true, if_false, cleanBv]
        exact dcd_clean PyDict.nil d rfl

theorem dcl_clean : ∀ xs : PyList, cleanBl (dcList xs) = true
  | PyList.nil => rfl
  | PyList.cons x xs => by
      by_cases h : deep_clean_data x = PyVal.none
      · simpa [dcList, h] using dcl_clean xs
      · have hx := (dcv_clean x).resolve_left h
        simp [dcList, h, cleanBl, hx, dcl_clean xs]

theorem dcd_clean : ∀ (acc d : PyDict),
    cleanBd acc = true → cleanBd (dcDict acc d) = true
  | acc, PyDict.nil, hacc => by simpa [dcDict] using hacc
  | acc, PyDict.cons k v rest, hacc => by
      by_cases hk : pvUndef k
      · simpa [dcDict, hk] using dcd_clean acc rest hacc
      · by_cases hcond : deep_clean_data k ≠ PyVal.none ∧
          (deep_clean_data v ≠ PyVal.none ∨ v = PyVal.none)
        · have hckB : cleanBv (deep_clean_data k) = true :=
            (dcv_clean k).resolve_left hcond.1
          have hcvB : cleanBv (deep_clean_data v) = true := by
            rcases hcond.2 with h | h
            · exact (dcv_clean v).resolve_left h
            · subst h; rfl
          have hins := cleanBd_dictInsert acc (deep_clean_data k)
            (deep_clean_data v) hacc hcond.1 hckB hcvB
          simpa [dcDict, hk, hcond] using
            dcd_clean (dictInsert acc (deep_clean_data k) (deep_clean_data v))
              rest hins
        · simpa [dcDict, hk, hcond] using dcd_clean acc rest hacc

end

mutual

theorem clean_fixed_v : ∀ v : PyVal, cleanBv v = true → deep_clean_data v = v
  | PyVal.none, _ => rfl
  | PyVal.bool _, _ => rfl
  | PyVal.int _, _ => rfl
  | PyVal.float _, _ => rfl
  | PyVal.str s, h => by
      simp only [cleanBv, Bool.and_eq_true, Bool.not_eq_true'] at h
      simp [deep_clean_data, h.1, h.2]
  | PyVal.list xs, h => by
      simp only [cleanBv] at h
      simp [deep_clean_data, cleanBl_plUndef xs h, clean_fixed_l xs h]
  | PyVal.tuple xs, h => by
      simp only [cleanBv] at h
      simp [deep_clean_data, cleanBl_plUndef xs h, clean_fixed_l xs h]
  | PyVal.dict d, h => by
      simp only [cleanBv] at h
      have := clean_fixed_d PyDict.nil d h (pdDisjoint_nil d)
      simp [deep_clean_data, cleanBd_pdUndef d h]
      simpa [pdAppend] using this

theorem clean_fixed_l : ∀ xs : PyList, cleanBl xs = true → dcList xs = xs
  | PyList.nil, _ => rfl
  | PyList.cons x xs, h => by
      simp only [cleanBl, Bool.and_eq_true, decide_eq_true_eq] at h
      have hx := clean_fixed_v x h.1.2
      simp [dcList, hx, h.1.1, clean_fixed_l xs h.2]

theorem clean_fixed_d : ∀ (acc d : PyDict), cleanBd d = true →
    pdDisjoint acc d = true → dcDict acc d = pdAppend acc d
  | acc, PyDict.nil, _, _ => by
      rw [show dcDict acc PyDict.nil = acc from rfl, pdAppend_nil acc]
  | acc, PyDict.cons k v rest, h, hdisj => by
      simp only [cleanBd, Bool.and_eq_true, Bool.not_eq_true',
        decide_eq_true_eq] at h
      simp only [pdDisjoint, Bool.and_eq_true, Bool.not_eq_true'] at hdisj
      have hku : pvUndef k = false := cleanBv_pvUndef k h.1.1.1.2
      have hck := clean_fixed_v k h.1.1.1.2
      have hcv := clean_fixed_v v h.1.1.2
      have hcond : deep_clean_data k ≠ PyVal.none ∧
          (deep_clean_data v ≠ PyVal.none ∨ v = PyVal.none) := by
        refine ⟨by rw [hck]; exact h.1.1.1.1, ?_⟩
        by_cases hv : v = PyVal.none
        · exact Or.inr hv
        · exact Or.inl (by rw [hcv]; exact hv)
      have hins : dictInsert acc k v = pdAppend acc (PyDict.cons k v PyDict.nil) :=
        dictInsert_of_not_hasKey acc k v hdisj.1
      have hdisj2 : pdDisjoint (pdAppend acc (PyDict.cons k v PyDict.nil)) rest = true := by
        rw [pdDisjoint_pdAppend]
        simp [hdisj.2, pdDisjoint_single_of_not_hasKey rest k v h.1.2]
      have hrec := clean_fixed_d (pdAppend acc (PyDict.cons k v PyDict.nil))
        rest h.2 hdisj2
      simp only [dcDict, hku, Bool.false_eq_true, if_false, hck, hcv, hcond,
        and_self, if_true, hins]
      rw [hrec, pdAppend_assoc]
      simp [pdAppend]
      exact fun hk2 => absurd hk2 h.1.1.1.1

end

/-- **C7.** `sanitize` (`deep_clean_data`) is idempotent: for every input
value `x` (scalar, mapping, or ordered sequence, arbitrarily nested),
`sanitize(sanitize(x)) == sanitize(x)`. -/
theorem deep_clean_data_idempotent (x : PyVal) :
    deep_clean_data (deep_clean_data x) = deep_clean_data x := by
  rcases dcv_clean x with h | h
  · rw [h]
    rfl
  · exact clean_fixed_v _ h

/-! ## Rounding lemmas for the budget model -/

theorem pythonRound_intCast (n : Int) : pythonRound (n : Rat) = n := by
  unfold pythonRound
  rw [Int.floor_intCast, sub_self]
  norm_num

theorem pythonRound_int_add_frac10 (q r : Int) (h0 : 0 ≤ r) (h1 : r < 10) :
    pythonRound ((q : Rat) + (r : Rat) / 10) =
      if r < 5 then q else if 5 < r then q + 1
      else if q % 2 = 0 then q else q + 1 := by
  have hr0 : (0 : Rat) ≤ (r : Rat) / 10 := by positivity
  have hr1 : (r : Rat) / 10 < 1 := by
    rw [div_lt_one (by norm_num : (0 : Rat) < 10)]
    exact_mod_cast h1
  have hfl : ⌊(q : Rat) + (r : Rat) / 10⌋ = q := by
    rw [add_comm, Int.floor_add_int, Int.floor_eq_zero_iff.mpr ⟨hr0, hr1⟩,
      zero_add]
  unfold pythonRound
  rw [hfl, show (q : Rat) + (r : Rat) / 10 - (q : Rat) = (r : Rat) / 10 from
    by ring]
  rcases lt_trichotomy r 5 with h | h | h
  · have hc : (r : Rat) / 10 < 1 / 2 := by
      have : (r : Rat) < 5 := by exact_mod_cast h
      linarith
    rw [if_pos hc, if_pos h]
  · subst h
    rw [if_neg (by norm_num : ¬(((5 : Int) : Rat) / 10 < 1 / 2)),
      if_neg (by norm_num : ¬((1 : Rat) / 2 < ((5 : Int) : Rat) / 10)),
      if_neg (by omega : ¬((5 : Int) < 5)),
      if_neg (by omega : ¬((5 : Int) < 5))]
  · have hc : (1 : Rat) / 2 < (r : Rat) / 10 := by
      have : (6 : Rat) ≤ (r : Rat) := by exact_mod_cast h
      linarith
    rw [if_neg (not_lt.mpr hc.le), if_pos hc, if_neg (by omega : ¬(r < 5)),
      if_pos h]

theorem roundTenth_eq_pythonRound (s : Int) :
    roundTenth s = pythonRound ((s : Rat) * (1 / 10)) := by
  have hs : 10 * (s / 10) + s % 10 = s := Int.ediv_add_emod s 10
  have hx : (s : Rat) * (1 / 10) =
      ((s / 10 : Int) : Rat) + ((s % 10 : Int) : Rat) / 10 := by
    have hcast : (s : Rat) =
        10 * ((s / 10 : Int) : Rat) + ((s % 10 : Int) : Rat) := by
      exact_mod_cast congrArg (fun z : Int => (z : Rat)) hs.symm
    rw [hcast]; ring
  rw [hx, pythonRound_int_add_frac10 _ _ (Int.emod_nonneg s (by norm_num))
    (Int.emod_lt_of_pos s (by norm_num))]
  rfl

theorem roundTotalTenth_eq_pythonRound (s : Int) :
    roundTotalTenth s = pythonRound ((s : Rat) + (s : Rat) * (1 / 10)) := by
  have harg : (s : Rat) + (s : Rat) * (1 / 10) =
      ((11 * s : Int) : Rat) * (1 / 10) := by
    push_cast; ring
  rw [roundTotalTenth, roundTenth_eq_pythonRound (11 * s), harg]

theorem roundTotalTenth_split (s : Int) (h : s % 10 ≠ 5) :
    roundTotalTenth s = s + roundTenth s := by
  unfold roundTotalTenth roundTenth
  omega

/-! ## C4: price-level clamping in `estimate_budget` -/

/-- **C4 (counterexample).** The claim says the priceLevel used to index
the cost tables is clamped to `[0,4]` before lookup, so the index is never
negative.  The source computes `min(price_level, 4)`, which does not clamp
from below: a place with `price_level = -1` produces the negative index
`-1`, and Python's negative indexing wraps to the *last* table entry,
costing the place 120 (a `[0,4]` clamp would give `15`). -/
theorem budgetIndex_negative_counterexample :
    budgetIndex (-1) = -1 ∧ ¬(0 ≤ budgetIndex (-1)) ∧
      estimate_budget [⟨some (-1), ["restaurant"]⟩] =
        some ⟨160, 25, 120, 0, 0, 14⟩ := by
  refine ⟨by decide, by decide, by decide⟩

/-- **C4 (amended).** In `estimate_budget` the table-lookup index is
`min(priceLevel, 4)` — clamped only from above.  For every *non-negative*
integer priceLevel the index is within bounds `[0,4]` (and an absent
priceLevel defaults to 2, giving index 2); a negative priceLevel passes
through un-clamped as a negative index. -/
theorem budgetIndex_bounds :
    (∀ pl : Int, 0 ≤ pl → 0 ≤ budgetIndex pl ∧ budgetIndex pl ≤ 4) ∧
      (∀ p : BudgetPlace, p.price_level = Option.none →
        budgetIndex (p.price_level.getD 2) = 2) := by
  constructor
  · intro pl hpl
    unfold budgetIndex
    omega
  · intro p hp
    rw [hp]
    decide

theorem budgetIndex_bounds_witness :
    (0 ≤ (7 : Int) ∧ (0 ≤ budgetIndex 7 ∧ budgetIndex 7 ≤ 4)) ∧
      ((⟨Option.none, ["cafe"]⟩ : BudgetPlace).price_level = Option.none ∧
        budgetIndex ((⟨Option.none, ["cafe"]⟩ : BudgetPlace).price_level.getD 2) = 2) :=
  ⟨⟨by decide, budgetIndex_bounds.1 7 (by decide)⟩,
    ⟨rfl, budgetIndex_bounds.2 ⟨Option.none, ["cafe"]⟩ rfl⟩⟩

/-! ## C5: miscellaneous and total in `estimate_budget` -/

/-- **C5 (counterexample).** The claim says the returned total equals the
sum of the breakdown values plus the returned miscellaneous.  On the empty
place list the breakdown sums to 25 (the transportation baseline),
`round(2.5)` is 2 (Python rounds half to even) so miscellaneous is 2, but
the total is `round(27.5) = 28 ≠ 25 + 2`: the total is rounded from the
*pre-rounded* miscellaneous.  (All doubles the source computes here are
exact, so the rational model agrees with the float evaluation.) -/
theorem estimate_budget_total_counterexample :
    estimate_budget [] = some ⟨28, 25, 0, 0, 0, 2⟩ ∧
      (28 : Int) ≠ (25 + 0 + 0 + 0) + 2 := by
  refine ⟨by decide, by decide⟩

/-- **C5 (amended).** For every place list, the returned miscellaneous
equals `round(0.1 × breakdownSum)` and the returned total equals
`round(breakdownSum + 0.1 × breakdownSum)` (Python half-even rounding of
the exact rational values); the total equals breakdownSum + miscellaneous
whenever the breakdown sum is not ≡ 5 mod 10 — at such half-ties the two
can differ by one, as the counterexample shows. -/
theorem estimate_budget_rounding (places : List BudgetPlace)
    (est : BudgetEstimate) (h : estimate_budget places = some est) :
    est.miscellaneous = pythonRound ((bSum est : Rat) * (1 / 10)) ∧
    est.total = pythonRound ((bSum est : Rat) + (bSum est : Rat) * (1 / 10)) ∧
    (bSum est % 10 ≠ 5 → est.total = bSum est + est.miscellaneous) := by
  simp only [estimate_budget, Option.map_eq_some'] at h
  obtain ⟨b, hb, hf⟩ := h
  subst hf
  have hsum : bSum ⟨roundTotalTenth (b.transportation + b.food + b.activities +
      b.accommodation), b.transportation, b.food, b.activities,
      b.accommodation, roundTenth (b.transportation + b.food + b.activities +
      b.accommodation)⟩ =
      b.transportation + b.food + b.activities + b.accommodation := rfl
  refine ⟨?_, ?_, ?_⟩
  · rw [hsum, ← roundTenth_eq_pythonRound]
  · rw [hsum, ← roundTotalTenth_eq_pythonRound]
  · intro hmod
    rw [hsum] at hmod ⊢
    exact roundTotalTenth_split _ hmod

theorem estimate_budget_rounding_witness :
    estimate_budget [⟨some 2, ["restaurant"]⟩] = some ⟨77, 25, 45, 0, 0, 7⟩ ∧
      ((⟨77, 25, 45, 0, 0, 7⟩ : BudgetEstimate).miscellaneous =
        pythonRound ((bSum ⟨77, 25, 45, 0, 0, 7⟩ : Rat) * (1 / 10)) ∧
      (⟨77, 25, 45, 0, 0, 7⟩ : BudgetEstimate).total =
        pythonRound ((bSum ⟨77, 25, 45, 0, 0, 7⟩ : Rat) +
          (bSum ⟨77, 25, 45, 0, 0, 7⟩ : Rat) * (1 / 10)) ∧
      (bSum ⟨77, 25, 45, 0, 0, 7⟩ % 10 ≠ 5 →
        (⟨77, 25, 45, 0, 0, 7⟩ : BudgetEstimate).total =
          bSum ⟨77, 25, 45, 0, 0, 7⟩ +
            (⟨77, 25, 45, 0, 0, 7⟩ : BudgetEstimate).miscellaneous)) :=
  ⟨by decide, estimate_budget_rounding [⟨some 2, ["restaurant"]⟩] _ (by decide)⟩

/-! ## C6 and C10: `clean_budget_data` -/

theorem cbd_get_transportation (bd : PyVal) :
    pyGet (clean_budget_data bd) "transportation" =
      some (PyVal.int (cbdTransportation bd)) := rfl

theorem cbd_get_food (bd : PyVal) :
    pyGet (clean_budget_data bd) "food" = some (PyVal.int (cbdFood bd)) := rfl

theorem cbd_get_activities (bd : PyVal) :
    pyGet (clean_budget_data bd) "activities" =
      some (PyVal.int (cbdActivities bd)) := rfl

theorem cbd_get_miscellaneous (bd : PyVal) :
    pyGet (clean_budget_data bd) "miscellaneous" =
      some (PyVal.int (cbdMisc bd)) := rfl

theorem cbd_get_total (bd : PyVal) :
    pyGet (clean_budget_data bd) "total" = some (PyVal.int (cbdTotal bd)) := rfl

theorem cbd_get_accommodation (bd : PyVal) :
    pyGet (clean_budget_data bd) "accommodation" = Option.none := rfl

/-- The integer tolerance test used in `cbdTotal` is exactly the source's
`abs(saved - calculated) <= calculated * 0.5` float comparison. -/
theorem cbdTotal_tolerance (s c : Int) :
    (2 * |s - c| ≤ c) ↔ (|(s : Rat) - (c : Rat)| ≤ (c : Rat) * (1 / 2)) := by
  constructor
  · intro h
    have h2 : ((2 * |s - c| : Int) : Rat) ≤ ((c : Int) : Rat) := by
      exact_mod_cast h
    push_cast at h2
    linarith
  · intro h
    have h2 : ((2 * |s - c| : Int) : Rat) ≤ ((c : Int) : Rat) := by
      push_cast
      linarith
    exact_mod_cast h2

/-- **C6.** `reconcile` (`clean_budget_data`) outputs the saved total
exactly when the saved total is positive and within 50% relative tolerance
of the freshly summed breakdown (`|saved − fresh| ≤ 0.5 × fresh`, the
fresh sum being the sum of the four breakdown fields of the returned
mapping); otherwise the output total is the freshly computed sum.  The
witness instantiates the spec example: saved total 100 against fresh sum
70 is preserved because `30 ≤ 35`. -/
theorem clean_budget_data_total_rule (bd : PyVal) (t f a m tot : Int)
    (ht : pyGet (clean_budget_data bd) "transportation" = some (PyVal.int t))
    (hf : pyGet (clean_budget_data bd) "food" = some (PyVal.int f))
    (ha : pyGet (clean_budget_data bd) "activities" = some (PyVal.int a))
    (hm : pyGet (clean_budget_data bd) "miscellaneous" = some (PyVal.int m))
    (htot : pyGet (clean_budget_data bd) "total" = some (PyVal.int tot)) :
    tot = if 0 < cbdSavedTotal bd ∧
        |(cbdSavedTotal bd : Rat) - ((t + f + a + m : Int) : Rat)| ≤
          ((t + f + a + m : Int) : Rat) * (1 / 2)
      then cbdSavedTotal bd else t + f + a + m := by
  have h1 : t = cbdTransportation bd := by
    have := (cbd_get_transportation bd).symm.trans ht
    simpa using this.symm
  have h2 : f = cbdFood bd := by
    have := (cbd_get_food bd).symm.trans hf
    simpa using this.symm
  have h3 : a = cbdActivities bd := by
    have := (cbd_get_activities bd).symm.trans ha
    simpa using this.symm
  have h4 : m = cbdMisc bd := by
    have := (cbd_get_miscellaneous bd).symm.trans hm
    simpa using this.symm
  have h5 : tot = cbdTotal bd := by
    have := (cbd_get_total bd).symm.trans htot
    simpa using this.symm
  subst h1 h2 h3 h4 h5
  have hsum : cbdTransportation bd + cbdFood bd + cbdActivities bd + cbdMisc bd =
      cbdCalculated bd := rfl
  rw [hsum, cbdTotal,
    if_congr (and_congr Iff.rfl (cbdTotal_tolerance (cbdSavedTotal bd)
      (cbdCalculated bd))) rfl rfl]

theorem clean_budget_data_total_rule_witness :
    (pyGet (clean_budget_data exBudgetSaved) "total" = some (PyVal.int 100) ∧
      cbdSavedTotal exBudgetSaved = 100) ∧
    (100 : Int) = (if 0 < cbdSavedTotal exBudgetSaved ∧
        |(cbdSavedTotal exBudgetSaved : Rat) - ((25 + 45 + 0 + 0 : Int) : Rat)| ≤
          ((25 + 45 + 0 + 0 : Int) : Rat) * (1 / 2)
      then cbdSavedTotal exBudgetSaved else 25 + 45 + 0 + 0) :=
  ⟨⟨by decide, by decide⟩,
    clean_budget_data_total_rule exBudgetSaved 25 45 0 0 100 (by decide)
      (by decide) (by decide) (by decide) (by decide)⟩

/-- **C10.** For every saved estimate whose `breakdown` is a nonempty dict,
`clean_budget_data` returns a flat mapping with exactly the keys
transportation, food, activities, miscellaneous, total (never an
accommodation key), and the saved accommodation, entertainment and other
amounts (plus any top-level miscellaneous) are summed into the output's
miscellaneous value. -/
theorem clean_budget_data_nested_shape (bd : PyVal) (d : PyDict)
    (h : cbdNested bd = some d) :
    pyKeys (clean_budget_data bd) =
      [PyVal.str "transportation", PyVal.str "food", PyVal.str "activities",
        PyVal.str "miscellaneous", PyVal.str "total"] ∧
    pyGet (clean_budget_data bd) "accommodation" = Option.none ∧
    pyGet (clean_budget_data bd) "miscellaneous" = some (PyVal.int
      (safe_budget_value (bdGetD d "other" (PyVal.int 0)) +
       safe_budget_value (bdGetD d "entertainment" (PyVal.int 0)) +
       safe_budget_value (bdGetD d "accommodation" (PyVal.int 0)) +
       safe_budget_value (pyGetD bd "miscellaneous" PyVal.none))) := by
  refine ⟨rfl, rfl, ?_⟩
  rw [cbd_get_miscellaneous]
  simp only [cbdMisc, h]

theorem clean_budget_data_nested_shape_witness :
    cbdNested exBudgetNested = some exBudgetNestedBreakdown ∧
    (pyKeys (clean_budget_data exBudgetNested) =
      [PyVal.str "transportation", PyVal.str "food", PyVal.str "activities",
        PyVal.str "miscellaneous", PyVal.str "total"] ∧
    pyGet (clean_budget_data exBudgetNested) "accommodation" = Option.none ∧
    pyGet (clean_budget_data exBudgetNested) "miscellaneous" = some (PyVal.int
      (safe_budget_value (bdGetD exBudgetNestedBreakdown "other" (PyVal.int 0)) +
       safe_budget_value (bdGetD exBudgetNestedBreakdown "entertainment" (PyVal.int 0)) +
       safe_budget_value (bdGetD exBudgetNestedBreakdown "accommodation" (PyVal.int 0)) +
       safe_budget_value (pyGetD exBudgetNested "miscellaneous" PyVal.none)))) :=
  ⟨by decide, clean_budget_data_nested_shape exBudgetNested
    exBudgetNestedBreakdown (by decide)⟩

/-! ## C8: validated places have a name and in-range nonzero coordinates -/

theorem placeGeometry_valid (place : PyVal) (la ln : Rat)
    (h : placeGeometry place = some (some (la, ln))) :
    -90 ≤ la ∧ la ≤ 90 ∧ -180 ≤ ln ∧ ln ≤ 180 ∧ la ≠ 0 ∧ ln ≠ 0 := by
  unfold placeGeometry at h
  repeat' split at h
  all_goals try simp_all
  all_goals (repeat' split at h)
  all_goals simp_all

/-- **C8.** For all raw inputs, every place returned by batch validation
(`clean_place_data`) has a name and a `geometry.location` whose
coordinates lie in `[-90,90] × [-180,180]` with neither coordinate zero
(in particular the location is never `(0,0)`). -/
theorem clean_place_data_valid (places : PyVal) (p : CleanedPlace)
    (hp : p ∈ clean_place_data places) :
    p.name.isSome = true ∧ ∃ la ln : Rat, p.geometry = some (la, ln) ∧
      -90 ≤ la ∧ la ≤ 90 ∧ -180 ≤ ln ∧ ln ≤ 180 ∧ la ≠ 0 ∧ ln ≠ 0 := by
  unfold clean_place_data at hp
  split at hp
  case h_2 => simp at hp
  case h_1 xs =>
    split at hp
    · simp at hp
    · split at hp
      case h_2 => simp at hp
      case h_1 ys =>
        rw [List.mem_filterMap] at hp
        obtain ⟨place, hmem, hf⟩ := hp
        cases hpp : processPlace place with
        | none => rw [hpp] at hf; simp at hf
        | some cp =>
            rw [hpp] at hf
            dsimp only at hf
            by_cases hcond : cp.name.isSome = true ∧ cp.geometry.isSome = true
            · rw [if_pos hcond] at hf
              have hcp : cp = p := by simpa using hf
              subst hcp
              refine ⟨hcond.1, ?_⟩
              have hgeo := hcond.2
              obtain ⟨⟨la, ln⟩, hg⟩ := Option.isSome_iff_exists.mp hgeo
              refine ⟨la, ln, hg, ?_⟩
              unfold processPlace at hpp
              split at hpp
              next =>
                split at hpp
                next => simp at hpp
                next geo hpg =>
                  have hcpg : cp.geometry = geo := by
                    dsimp only at hpp
                    have h2 := Option.some.inj hpp
                    rw [← h2]
                  rw [hcpg] at hg
                  subst hg
                  exact placeGeometry_valid _ la ln hpg
              next => simp at hpp
            · rw [if_neg hcond] at hf
              simp at hf

theorem clean_place_data_valid_witness :
    exCleanedPlace ∈ clean_place_data exRawPlaces ∧
    (exCleanedPlace.name.isSome = true ∧ ∃ la ln : Rat,
      exCleanedPlace.geometry = some (la, ln) ∧ -90 ≤ la ∧ la ≤ 90 ∧
      -180 ≤ ln ∧ ln ≤ 180 ∧ la ≠ 0 ∧ ln ≠ 0) :=
  ⟨by decide, clean_place_data_valid exRawPlaces exCleanedPlace (by decide)⟩

/-! ## C9: selection-index resolution -/

/-- **C9 (counterexample).** The claim says no out-of-range selection
entry ever resolves to a place and that resolved places are exactly the
entries whose index validly addresses a position `0 ≤ i < len`.  The
source guards only `idx < len(places)` (line 1005), so the entry `"-1"` —
whose index addresses no non-negative position of a 2-element list —
resolves via Python's negative indexing to the *last* place. -/
theorem firstPass_negative_index_counterexample :
    strToIntOpt "-1" = some (-1) ∧ ((-1 : Int) < 0) ∧
      firstPass ["-1"] [exSelPlace0, exSelPlace1] = some [exSelPlace1] := by
  refine ⟨by decide, by decide, by decide⟩

/-- **C9 (amended).** For every selection and places list for which the
first pass completes normally: the result is exactly the in-order
collection of the per-entry resolutions; entries that fail `int()` are
skipped (not fatal); entries with index `≥ len` or `< -len` are skipped
(not fatal); and every resolved place comes from an index that addresses a
position of the list under Python indexing semantics — which includes the
negative indices `-len ≤ i ≤ -1`, not only `0 ≤ i < len`. -/
theorem firstPass_resolution (ids : List String) (places : List PyVal)
    (res : List PyVal) (h : firstPass ids places = some res) :
    res = ids.filterMap (fun s => Option.join (resolveEntry places s)) ∧
    (∀ s, strToIntOpt s = Option.none →
      Option.join (resolveEntry places s) = Option.none) ∧
    (∀ s i, strToIntOpt s = some i →
      ((places.length : Int) ≤ i ∨ i < -(places.length : Int)) →
      Option.join (resolveEntry places s) = Option.none) ∧
    (∀ s i p, strToIntOpt s = some i →
      Option.join (resolveEntry places s) = some p →
      ∃ place, pyIdx places i = some place ∧
        validSelectedPlace place = some (some p)) := by
  refine ⟨?_, ?_, ?_, ?_⟩
  · induction ids generalizing res with
    | nil =>
        unfold firstPass at h
        simp at h
        simp [h.symm]
    | cons s rest ih =>
        unfold firstPass at h
        cases hre : resolveEntry places s with
        | none => rw [hre] at h; simp at h
        | some r =>
            rw [hre] at h
            rw [Option.map_eq_some'] at h
            obtain ⟨l, hl, hres⟩ := h
            have hrec := ih l hl
            subst hres
            cases r with
            | none => simp [List.filterMap_cons, hre, Option.join, hrec]
            | some p => simp [List.filterMap_cons, hre, Option.join, hrec]
  · intro s hs
    simp [resolveEntry, hs, Option.join]
  · intro s i hi hrange
    simp only [resolveEntry, hi]
    rcases hrange with hge | hlt
    · rw [if_neg (not_lt.mpr hge)]
      simp [Option.join]
    · have hlen : (0 : Int) ≤ (places.length : Int) := by positivity
      rw [if_pos (by omega)]
      rw [show pyIdx places i = Option.none from by
        unfold pyIdx
        rw [if_neg (by omega), if_neg (by omega)]]
      simp [Option.join]
  · intro s i p hi hj
    simp only [resolveEntry, hi] at hj
    by_cases hlt : i < (places.length : Int)
    · rw [if_pos hlt] at hj
      cases hpi : pyIdx places i with
      | none => rw [hpi] at hj; simp [Option.join] at hj
      | some place =>
          rw [hpi] at hj
          dsimp only at hj
          refine ⟨place, rfl, ?_⟩
          cases hv : validSelectedPlace place with
          | none => rw [hv] at hj; simp [Option.join] at hj
          | some r =>
              rw [hv] at hj
              cases r with
              | none => simp [Option.join] at hj
              | some q =>
                  simp [Option.join] at hj
                  rw [hj]
    · rw [if_neg hlt] at hj
      simp [Option.join] at hj

theorem firstPass_resolution_witness :
    firstPass ["junk", "5", "0", "-3"] [exSelPlace0, exSelPlace1] =
      some [exSelPlace0] ∧
    [exSelPlace0] = (["junk", "5", "0", "-3"]).filterMap
      (fun s => Option.join (resolveEntry [exSelPlace0, exSelPlace1] s)) :=
  ⟨by decide, (firstPass_resolution ["junk", "5", "0", "-3"]
    [exSelPlace0, exSelPlace1] [exSelPlace0] (by decide)).1⟩

/-! ## Haversine evaluation lemmas -/

theorem calculate_distance_same_lng (lat1 lat2 lng : Real)
    (h : |radians (lat2 - lat1)| / 2 < Real.pi / 2) :
    calculate_distance lat1 lng lat2 lng = 6371 * |radians (lat2 - lat1)| := by
  have habs : |radians (lat2 - lat1) / 2| < Real.pi / 2 := by
    rw [abs_div]
    simpa using h
  set θ : Real := radians (lat2 - lat1) / 2 with hθ
  have hθpi : -(Real.pi / 2) < θ ∧ θ < Real.pi / 2 := abs_lt.mp habs
  have hcos0 : 0 < Real.cos θ :=
    Real.cos_pos_of_mem_Ioo ⟨hθpi.1, hθpi.2⟩
  have hsin : Real.sqrt (Real.sin θ ^ 2) = Real.sin |θ| := by
    rw [Real.sqrt_sq_eq_abs]
    rcases le_or_lt 0 θ with hpos | hneg
    · rw [abs_of_nonneg hpos,
        abs_of_nonneg (Real.sin_nonneg_of_nonneg_of_le_pi hpos
          (by linarith [Real.pi_pos]))]
    · rw [abs_of_neg hneg, abs_of_nonpos
        (Real.sin_nonpos_of_nonnpos_of_neg_pi_le hneg.le
          (by linarith [Real.pi_pos])), ← Real.sin_neg]
  have hcos : Real.sqrt (1 - Real.sin θ ^ 2) = Real.cos θ := by
    rw [show (1 : Real) - Real.sin θ ^ 2 = Real.cos θ ^ 2 from
      (Real.cos_sq' θ).symm, Real.sqrt_sq hcos0.le]
  have hatan : atan2 (Real.sin |θ|) (Real.cos θ) = |θ| := by
    unfold atan2
    rw [if_pos hcos0, ← Real.cos_abs, ← Real.tan_eq_sin_div_cos,
      Real.arctan_tan (by linarith [Real.pi_pos, abs_nonneg θ] :
        -(Real.pi / 2) < |θ|) habs]
  have hz : radians (lng - lng) = 0 := by simp [radians]
  unfold calculate_distance
  rw [hz]
  rw [show (0 : Real) / 2 = 0 from by norm_num, Real.sin_zero]
  rw [show Real.sin (radians (lat2 - lat1) / 2) ^ 2 +
      Real.cos (radians lat1) * Real.cos (radians lat2) * 0 ^ 2 =
      Real.sin θ ^ 2 from by rw [← hθ]; ring]
  rw [hsin, hcos, hatan]
  rw [hθ, abs_div]
  norm_num
  ring

theorem calculate_distance_self (la ln : Real) :
    calculate_distance la ln la ln = 0 := by
  have h : |radians (la - la)| / 2 < Real.pi / 2 := by
    simp [radians]
    positivity
  rw [calculate_distance_same_lng la la ln h]
  simp [radians]

theorem radians_AB : radians (placeB.lat - placeA.lat) = 20 / 6371 := by
  show radians ((1 + delta20) - (1 - delta20)) = 20 / 6371
  unfold delta20 radians
  have hpi := Real.pi_ne_zero
  field_simp
  ring

theorem dist_AB :
    calculate_distance placeA.lat placeA.lng placeB.lat placeB.lng = 20 := by
  have hlt : |radians (placeB.lat - placeA.lat)| / 2 < Real.pi / 2 := by
    rw [radians_AB, abs_of_nonneg (by norm_num : (0 : Real) ≤ 20 / 6371)]
    have h3 := Real.pi_gt_three
    linarith
  rw [show placeA.lng = (1 : Real) from rfl, show placeB.lng = (1 : Real) from rfl,
    calculate_distance_same_lng _ _ _ hlt, radians_AB,
    abs_of_nonneg (by norm_num : (0 : Real) ≤ 20 / 6371)]
  norm_num

theorem centroid_AB : centroid [placeA, placeB] = ⟨1, 1⟩ := by
  apply GeoPlace.ext_
  · show (placeA.lat + (placeB.lat + 0)) / ((2 : Nat) : Real) = 1
    show ((1 - delta20) + ((1 + delta20) + 0)) / ((2 : Nat) : Real) = 1
    push_cast
    ring
  · show (placeA.lng + (placeB.lng + 0)) / ((2 : Nat) : Real) = 1
    show ((1 : Real) + (1 + 0)) / ((2 : Nat) : Real) = 1
    push_cast
    ring

theorem radians_center_A : radians (placeA.lat - 1) = -(10 / 6371) := by
  show radians ((1 - delta20) - 1) = -(10 / 6371)
  unfold delta20 radians
  have hpi := Real.pi_ne_zero
  field_simp
  ring

theorem radians_center_B : radians (placeB.lat - 1) = 10 / 6371 := by
  show radians ((1 + delta20) - 1) = 10 / 6371
  unfold delta20 radians
  have hpi := Real.pi_ne_zero
  field_simp
  ring

theorem dist_center_A :
    calculate_distance 1 1 placeA.lat placeA.lng = 10 := by
  have hlt : |radians (placeA.lat - 1)| / 2 < Real.pi / 2 := by
    rw [radians_center_A, abs_neg,
      abs_of_nonneg (by norm_num : (0 : Real) ≤ 10 / 6371)]
    have h3 := Real.pi_gt_three
    linarith
  rw [show placeA.lng = (1 : Real) from rfl,
    calculate_distance_same_lng 1 placeA.lat 1 hlt, radians_center_A, abs_neg,
    abs_of_nonneg (by norm_num : (0 : Real) ≤ 10 / 6371)]
  norm_num

theorem dist_center_B :
    calculate_distance 1 1 placeB.lat placeB.lng = 10 := by
  have hlt : |radians (placeB.lat - 1)| / 2 < Real.pi / 2 := by
    rw [radians_center_B,
      abs_of_nonneg (by norm_num : (0 : Real) ≤ 10 / 6371)]
    have h3 := Real.pi_gt_three
    linarith
  rw [show placeB.lng = (1 : Real) from rfl,
    calculate_distance_same_lng 1 placeB.lat 1 hlt, radians_center_B,
    abs_of_nonneg (by norm_num : (0 : Real) ≤ 10 / 6371)]
  norm_num

theorem gates_AB : assembleGates [placeA, placeB] = Except.ok [placeA, placeB] := by
  have hdA : calculate_distance (centroid [placeA, placeB]).lat
      (centroid [placeA, placeB]).lng placeA.lat placeA.lng ≤ 15 := by
    rw [centroid_AB]
    rw [show (⟨1, 1⟩ : GeoPlace).lat = (1 : Real) from rfl,
      show (⟨1, 1⟩ : GeoPlace).lng = (1 : Real) from rfl, dist_center_A]
    norm_num
  have hdB : calculate_distance (centroid [placeA, placeB]).lat
      (centroid [placeA, placeB]).lng placeB.lat placeB.lng ≤ 15 := by
    rw [centroid_AB]
    rw [show (⟨1, 1⟩ : GeoPlace).lat = (1 : Real) from rfl,
      show (⟨1, 1⟩ : GeoPlace).lng = (1 : Real) from rfl, dist_center_B]
    norm_num
  have hsel : clusterFilter (centroid [placeA, placeB]) [placeA, placeB] =
      [placeA, placeB] := by
    unfold clusterFilter
    rw [List.filter_cons_of_pos (by simpa using hdA),
      List.filter_cons_of_pos (by simpa using hdB), List.filter_nil]
  unfold assembleGates
  rw [if_neg (by norm_num : ¬(([placeA, placeB] : List GeoPlace).length < 2))]
  dsimp only
  rw [hsel, if_neg (by norm_num : ¬(([placeA, placeB] : List GeoPlace).length < 2))]

theorem gates_pair_self (p : GeoPlace) :
    assembleGates [p, p] = Except.ok [p, p] := by
  have hc : centroid [p, p] = p := by
    apply GeoPlace.ext_
    · show (p.lat + (p.lat + 0)) / ((2 : Nat) : Real) = p.lat
      push_cast
      ring
    · show (p.lng + (p.lng + 0)) / ((2 : Nat) : Real) = p.lng
      push_cast
      ring
  have hd : calculate_distance (centroid [p, p]).lat (centroid [p, p]).lng
      p.lat p.lng ≤ 15 := by
    rw [hc, calculate_distance_self]
    norm_num
  have hsel : clusterFilter (centroid [p, p]) [p, p] = [p, p] := by
    unfold clusterFilter
    rw [List.filter_cons_of_pos (by simpa using hd),
      List.filter_cons_of_pos (by simpa using hd), List.filter_nil]
  unfold assembleGates
  rw [if_neg (by norm_num : ¬(([p, p] : List GeoPlace).length < 2))]
  dsimp only
  rw [hsel, if_neg (by norm_num : ¬(([p, p] : List GeoPlace).length < 2))]

theorem gates_single (p : GeoPlace) :
    assembleGates [p] = Except.error AssembleError.InsufficientPlaces := by
  unfold assembleGates
  rw [if_pos (by norm_num : ([p] : List GeoPlace).length < 2)]

/-! ## C1: the assemble pipeline gates -/

/-- **C1 (counterexample).** The claim says two valid places 20 km apart
fail with `InsufficientAfterClustering` under the keep-within-15-km-of-
centroid rule.  But the centroid of two places is their midpoint, so each
place is only 10 km from it: both survive the 15 km filter and the
pipeline succeeds. -/
theorem assembleGates_20km_counterexample :
    calculate_distance placeA.lat placeA.lng placeB.lat placeB.lng = 20 ∧
      assembleGates [placeA, placeB] ≠
        Except.error AssembleError.InsufficientAfterClustering := by
  refine ⟨dist_AB, ?_⟩
  rw [gates_AB]
  intro hcontra
  exact Except.noConfusion hcontra

/-- **C1 (amended).** With exactly 2 valid co-located places (distance 0)
the pipeline passes both minimum-count gates; with only 1 valid place it
fails with `InsufficientPlaces`; with exactly 2 valid places 20 km apart
it also passes both gates (each place lies 10 km from the centroid, within
the 15 km rule) — failure after clustering would require the two places to
be more than 30 km apart. -/
theorem assembleGates_cases :
    (∀ p : GeoPlace, assembleGates [p, p] = Except.ok [p, p]) ∧
    (∀ p : GeoPlace, assembleGates [p] =
      Except.error AssembleError.InsufficientPlaces) ∧
    calculate_distance placeA.lat placeA.lng placeB.lat placeB.lng = 20 ∧
    assembleGates [placeA, placeB] = Except.ok [placeA, placeB] :=
  ⟨gates_pair_self, gates_single, dist_AB, gates_AB⟩

/-! ## C3: boundary behavior of the two distance filters -/

theorem cityDistanceDeg_boundary :
    cityDistanceDeg placeDeg03.lat placeDeg03.lng 1 1 = 3 / 10 := by
  unfold cityDistanceDeg
  rw [show placeDeg03.lat = (13 : Real) / 10 from rfl,
    show placeDeg03.lng = (1 : Real) from rfl]
  rw [show |(13 : Real) / 10 - 1| ^ 2 + |(1 : Real) - 1| ^ 2 =
    ((3 : Real) / 10) ^ 2 from by rw [abs_of_nonneg (by norm_num : (0 : Real) ≤ 13 / 10 - 1)]; norm_num]
  exact Real.sqrt_sq (by norm_num)

theorem cityFilter_boundary_dropped : cityFilter [placeDeg03] 1 1 = [] := by
  unfold cityFilter
  rw [List.filter_cons_of_neg (by simp [cityDistanceDeg_boundary]),
    List.filter_nil]

theorem radians_15 : radians (place15.lat - 1) = 15 / 6371 := by
  show radians ((1 + delta15) - 1) = 15 / 6371
  unfold delta15 radians
  have hpi := Real.pi_ne_zero
  field_simp
  ring

theorem dist_place15 : calculate_distance 1 1 place15.lat place15.lng = 15 := by
  have hlt : |radians (place15.lat - 1)| / 2 < Real.pi / 2 := by
    rw [radians_15, abs_of_nonneg (by norm_num : (0 : Real) ≤ 15 / 6371)]
    have h3 := Real.pi_gt_three
    linarith
  rw [show place15.lng = (1 : Real) from rfl,
    calculate_distance_same_lng 1 place15.lat 1 hlt, radians_15,
    abs_of_nonneg (by norm_num : (0 : Real) ≤ 15 / 6371)]
  norm_num

theorem clusterFilter_boundary_kept :
    clusterFilter ⟨1, 1⟩ [place15] = [place15] := by
  unfold clusterFilter
  rw [List.filter_cons_of_pos (by
      simp only [decide_eq_true_eq]
      show calculate_distance 1 1 place15.lat place15.lng ≤ 15
      rw [dist_place15]),
    List.filter_nil]

/-- **C3 (counterexample).** The claim says every distance filter keeps
`distance == R` inclusively.  The coarse city filter compares
`distance < 0.3` (app.py line 706), so a place at exactly 0.3 degrees from
the city centre is dropped. -/
theorem cityFilter_boundary_counterexample :
    cityDistanceDeg placeDeg03.lat placeDeg03.lng 1 1 = 3 / 10 ∧
      cityFilter [placeDeg03] 1 1 = [] :=
  ⟨cityDistanceDeg_boundary, cityFilter_boundary_dropped⟩

/-- **C3 (amended).** The coarse city filter keeps exactly the places with
planar degree distance *strictly less than* 0.3 (the boundary
`distance == 0.3` is excluded), while the 15 km haversine cluster filter
keeps exactly the places with distance `≤ 15` (boundary inclusive); the
two concrete boundary cases witness the difference. -/
theorem filter_membership_rules :
    (∀ (places : List GeoPlace) (cLat cLng : Real) (p : GeoPlace),
      p ∈ cityFilter places cLat cLng ↔
        p ∈ places ∧ cityDistanceDeg p.lat p.lng cLat cLng < 3 / 10) ∧
    (∀ (center : GeoPlace) (places : List GeoPlace) (p : GeoPlace),
      p ∈ clusterFilter center places ↔
        p ∈ places ∧ calculate_distance center.lat center.lng p.lat p.lng ≤ 15) ∧
    (cityDistanceDeg placeDeg03.lat placeDeg03.lng 1 1 = 3 / 10 ∧
      cityFilter [placeDeg03] 1 1 = []) ∧
    (calculate_distance 1 1 place15.lat place15.lng = 15 ∧
      clusterFilter ⟨1, 1⟩ [place15] = [place15]) := by
  refine ⟨?_, ?_, ⟨cityDistanceDeg_boundary, cityFilter_boundary_dropped⟩,
    ⟨dist_place15, clusterFilter_boundary_kept⟩⟩
  · intro places cLat cLng p
    unfold cityFilter
    rw [List.mem_filter]
    simp [decide_eq_true_eq]
  · intro center places p
    unfold clusterFilter
    rw [List.mem_filter]
    simp [decide_eq_true_eq]

/-! ## C2: reorder reconciliation -/

theorem range_filterMap_get {α : Type} (xs : List α) :
    ∀ k : Nat, k ≤ xs.length →
      (List.range k).filterMap (fun n => xs.get? n) = xs.take k := by
  intro k
  induction k with
  | zero => intro _; simp
  | succ n ih =>
      intro hk
      rw [List.range_succ, List.filterMap_append, ih (by omega),
        List.take_succ]
      cases h : xs.get? n with
      | none =>
          rw [List.get?_eq_none] at h
          omega
      | some a =>
          have h2 : xs[n]? = some a := by
            rw [← List.get?_eq_getElem?]
            exact h
          simp [List.filterMap_cons, h, h2]

/-- **C2.** When the provider response contains an optimized
intermediate-waypoint index permutation whose length equals the number of
interior points (`selected.length - 2`), the returned sequence keeps the
origin first and the destination last, its interior is exactly the
original interior rearranged by that permutation
(`j`-th interior = `selected[idxs[j] + 1]`), and the result is a
permutation of the input (nothing dropped or duplicated); when the length
does not match — or the key is absent — the original order is returned
unchanged. -/
theorem reorderPlaces_spec {α : Type} (x : α) (xs : List α) (k : Nat)
    (hk : (x :: xs).length = k + 2) (idxs : List Int)
    (hperm : idxs.Perm ((List.range k).map Int.ofNat)) :
    reorderPlaces (x :: xs) (some idxs) =
      x :: (idxs.filterMap (fun i => (x :: xs).get? (i + 1).toNat)) ++
        [(x :: xs).getLast (by simp)] ∧
    (reorderPlaces (x :: xs) (some idxs)).Perm (x :: xs) ∧
    (∀ idxs2 : List Int, ((idxs2.length : Int) ≠ ((x :: xs).length : Int) - 2) →
      reorderPlaces (x :: xs) (some idxs2) = x :: xs) ∧
    reorderPlaces (x :: xs) Option.none = x :: xs := by
  have hxslen : xs.length = k + 1 := by simpa using hk
  have hxs : xs ≠ [] := by
    intro hcon
    rw [hcon] at hxslen
    simp at hxslen
  have hlen : idxs.length = k := by
    rw [hperm.length_eq]
    simp
  have hcond : (idxs.length : Int) = ((x :: xs).length : Int) - 2 := by
    rw [hlen, hk]
    push_cast
    ring
  have hfun : ∀ i ∈ idxs,
      (if i + 1 < ((x :: xs).length : Int) - 1 then pyIdx (x :: xs) (i + 1)
       else Option.none) = (x :: xs).get? (i + 1).toNat := by
    intro i hi
    obtain ⟨n, hn, rfl⟩ := List.mem_map.mp (hperm.mem_iff.mp hi)
    have hnk : n < k := List.mem_range.mp hn
    have hcast : Int.ofNat n = (n : Int) := rfl
    rw [hcast, if_pos (by rw [hk]; push_cast; omega)]
    unfold pyIdx
    rw [if_pos (by positivity)]
  have hmain : reorderPlaces (x :: xs) (some idxs) =
      x :: (idxs.filterMap (fun i => (x :: xs).get? (i + 1).toNat)) ++
        [(x :: xs).getLast (by simp)] := by
    unfold reorderPlaces
    dsimp only
    rw [if_pos hcond]
    rw [List.filterMap_congr hfun]
  refine ⟨hmain, ?_, ?_, rfl⟩
  · rw [hmain]
    have hmid : (idxs.filterMap (fun i => (x :: xs).get? (i + 1).toNat)).Perm
        (xs.dropLast) := by
      have h1 := hperm.filterMap (fun i => (x :: xs).get? (i + 1).toNat)
      have h2 : ((List.range k).map Int.ofNat).filterMap
          (fun i => (x :: xs).get? (i + 1).toNat) =
          (List.range k).filterMap (fun n => xs.get? n) := by
        rw [List.filterMap_map]
        apply List.filterMap_congr
        intro n _
        show (x :: xs).get? ((Int.ofNat n) + 1).toNat = xs.get? n
        rw [show ((Int.ofNat n) + 1).toNat = n + 1 from by
          rw [show Int.ofNat n = (n : Int) from rfl]
          omega]
        rfl
      rw [h2, range_filterMap_get xs k (by omega)] at h1
      rw [List.dropLast_eq_take, show xs.length - 1 = k from by omega]
      exact h1
    have hteq : xs.dropLast ++ [xs.getLast hxs] = xs :=
      List.dropLast_append_getLast hxs
    rw [List.getLast_cons hxs]
    have hstep : (x :: idxs.filterMap (fun i => (x :: xs).get? (i + 1).toNat) ++
        [xs.getLast hxs]).Perm (x :: xs.dropLast ++ [xs.getLast hxs]) :=
      List.Perm.append_right _ (hmid.cons x)
    have hfin : x :: xs.dropLast ++ [xs.getLast hxs] = x :: xs := by
      rw [List.cons_append, hteq]
    exact hfin ▸ hstep
  · intro idxs2 hne
    unfold reorderPlaces
    dsimp only
    rw [if_neg hne]

theorem reorderPlaces_spec_witness :
    (([10, 20, 30, 40] : List Nat).length = 2 + 2 ∧
      ([1, 0] : List Int).Perm ((List.range 2).map Int.ofNat)) ∧
    reorderPlaces ([10, 20, 30, 40] : List Nat) (some [1, 0]) =
      10 :: (([1, 0] : List Int).filterMap
        (fun i => ([10, 20, 30, 40] : List Nat).get? (i + 1).toNat)) ++
        [([10, 20, 30, 40] : List Nat).getLast (by simp)] :=
  ⟨⟨by decide, by decide⟩,
    (reorderPlaces_spec 10 [20, 30, 40] 2 (by decide) [1, 0] (by decide)).1⟩
